import Mathlib

/-!
Verification of the AOK remote-control protocol codec
(`esphome/components/remote_base/aok_protocol.cpp`).

The codec translates a packet (device id, channel mask, command code) into a
sequence of timed mark/space pulses and reconstructs packets from a received
pulse stream.  Pulses are modelled as integers: a mark of duration `m` is the
value `m`, a space of duration `s` is the value `-s`.  Machine integers of the
source are modelled as `Nat` with explicit masking where the source masks.
-/

/-! ## Protocol constants (from the source) -/

def AOK_PACKET_SIZE : Nat := 64

def AOK_HEADER : Nat := 0xa3

def AOK_PRE_POST_ZEROS : Nat := 8 * 2

def AOK_PACKET_PREFIX_MARK : Nat := 5000

def AOK_PACKET_SUFFIX_SPACE : Nat := 5000

def AOK_ONE_MARK : Nat := 600

def AOK_ONE_SPACE : Nat := 275

def AOK_ZERO_MARK : Nat := 290

def AOK_ZERO_SPACE : Nat := 600

def AOK_REPEATS : Nat := 6

/-! ## Commands and channels (from `aok_protocol.h`) -/

def COMMAND_UP : Nat := 0x0b

def COMMAND_DOWN : Nat := 0x43

def COMMAND_STOP : Nat := 0x23

def COMMAND_PROGRAM : Nat := 0x53

def COMMAND_RELEASE : Nat := 0x24

def CHANNEL_1 : Nat := 0x0100

/-! ## Packet data -/

/-- The `AOKData` struct: `device` is a `uint32_t`, `channel` a 16-bit enum
value, `command` an 8-bit enum value.  Fields are `Nat`; the C++ type bounds
are carried as the `Wf` predicate below where a theorem needs them. -/
structure AOKData where
  device : Nat
  channel : Nat
  command : Nat
deriving DecidableEq, Repr

/-- The C++ type bounds of the `AOKData` fields. -/
def AOKData.Wf (d : AOKData) : Prop :=
  d.device < 2 ^ 32 ∧ d.channel < 2 ^ 16 ∧ d.command < 2 ^ 8

/-- A packet whose device id also fits the 24-bit wire field. -/
def AOKData.Valid (d : AOKData) : Prop :=
  d.device < 2 ^ 24 ∧ d.channel < 2 ^ 16 ∧ d.command < 2 ^ 8

instance (d : AOKData) : Decidable d.Wf :=
  inferInstanceAs (Decidable (_ ∧ _ ∧ _))

instance (d : AOKData) : Decidable d.Valid :=
  inferInstanceAs (Decidable (_ ∧ _ ∧ _))

/-- The `AOKData::checksum` member: sum of the three low bytes of `device`,
the two bytes of `channel` (little-endian byte reads through `uint8_t`
pointers) and `command`, truncated to 8 bits. -/
def AOKData.checksum (d : AOKData) : Nat :=
  (d.device % 256 + d.device / 256 % 256 + d.device / 65536 % 256 +
   d.channel % 256 + d.channel / 256 % 256 + d.command) % 256

/-- The `AOKProtocol::packet_bits` member: a 64-bit bitset built by ORing the
header into the top byte and the fields below it, exactly as the source
does (`bits |= x << k` in sequence). -/
def packet_bits (d : AOKData) : Nat :=
  ((((AOK_HEADER <<< 56) ||| (d.device <<< 32)) ||| (d.channel <<< 16)) |||
    (d.command <<< 8)) ||| d.checksum

/-! ## Transmit encoder

Modelled from the spec: the pulse sink (`RemoteTransmitData`, declared
outside this repository's source file) accepts an ordered sequence of
(mark, space) duration pairs; `item(mark, space)` appends one pair.  The
sink's buffer is the flat pulse list, a mark stored as the positive
duration and a space as the negated duration. -/

def item (dst : List Int) (mark space : Nat) : List Int :=
  dst ++ [(mark : Int), -(space : Int)]

/-- The bit loop of `AOKProtocol::encode_packet`: iteration `i` of the C++
loop emits the pulse pair for bit `63 - i` of the 64-bit frame, so the
counted-down argument `n` is the bit position tested. -/
def encodeBits (dst : List Int) (bits : Nat) : Nat → List Int
  | 0 => dst
  | n + 1 =>
    encodeBits
      (if bits.testBit n then item dst AOK_ONE_MARK AOK_ONE_SPACE
       else item dst AOK_ZERO_MARK AOK_ZERO_SPACE) bits n

/-- The `AOKProtocol::encode_packet` member: one frame = packet-start item,
64 bit items (most significant bit first), suffix item. -/
def encode_packet (dst : List Int) (d : AOKData) : List Int :=
  item
    (encodeBits (item dst AOK_PACKET_PREFIX_MARK AOK_ZERO_SPACE)
      (packet_bits d) AOK_PACKET_SIZE)
    AOK_ONE_MARK AOK_PACKET_SUFFIX_SPACE

/-- The repeat loop of `AOKProtocol::encode`. -/
def repeatPackets (dst : List Int) (d : AOKData) : Nat → List Int
  | 0 => dst
  | n + 1 => repeatPackets (encode_packet dst d) d n

/-- The preamble/postamble loops of `AOKProtocol::encode`: `n` zero items. -/
def zeroItems (dst : List Int) : Nat → List Int
  | 0 => dst
  | n + 1 => zeroItems (item dst AOK_ZERO_MARK AOK_ZERO_SPACE) n

/-- The `AOKProtocol::encode` member: preamble, `AOK_REPEATS` frames, for
UP/DOWN commands `AOK_REPEATS` further frames of the same packet with the
command overwritten to RELEASE, then the postamble. -/
def encode (d : AOKData) : List Int :=
  let dst := zeroItems [] AOK_PRE_POST_ZEROS
  let dst := repeatPackets dst d AOK_REPEATS
  let dst :=
    if d.command = COMMAND_UP ∨ d.command = COMMAND_DOWN then
      repeatPackets dst { d with command := COMMAND_RELEASE } AOK_REPEATS
    else dst
  zeroItems dst AOK_PRE_POST_ZEROS

/-! ## Receive decoder -/

/-- Modelled from the spec: the pulse source (`RemoteReceiveData`, declared
outside this repository's source file) exposes the raw pulse buffer, a read
cursor, peeking at a forward offset, and matching of a claimed (mark, space)
pair against the live data within an implementation-defined tolerance.  The
tolerance is modelled as a percentage `tol` carried by the source. -/
structure RemoteReceiveData where
  data : List Int
  index : Nat
  tol : Nat
deriving DecidableEq, Repr

def RemoteReceiveData.size (src : RemoteReceiveData) : Nat :=
  src.data.length

def RemoteReceiveData.advance (src : RemoteReceiveData) (n : Nat) :
    RemoteReceiveData :=
  { src with index := src.index + n }

def RemoteReceiveData.peek (src : RemoteReceiveData) (offset : Nat) :
    Option Int :=
  src.data.get? (src.index + offset)

/-- Modelled from the spec: lower bound of the match window for an expected
duration `len` at tolerance `tol` percent. -/
def lowBound (tol len : Nat) : Nat := len * (100 - tol) / 100

/-- Modelled from the spec: upper bound of the match window. -/
def highBound (tol len : Nat) : Nat := len * (100 + tol) / 100

/-- Modelled from the spec: a mark matches when the pulse at the offset is
non-negative and its duration lies in the tolerance window. -/
def RemoteReceiveData.peekMark (src : RemoteReceiveData) (len offset : Nat) :
    Bool :=
  match src.peek offset with
  | none => false
  | some v =>
    decide (0 ≤ v) && decide ((lowBound src.tol len : Int) ≤ v) &&
      decide (v ≤ (highBound src.tol len : Int))

/-- Modelled from the spec: a space matches when the pulse at the offset is
non-positive and its magnitude lies in the tolerance window. -/
def RemoteReceiveData.peekSpace (src : RemoteReceiveData) (len offset : Nat) :
    Bool :=
  match src.peek offset with
  | none => false
  | some v =>
    decide (v ≤ 0) && decide ((lowBound src.tol len : Int) ≤ -v) &&
      decide (-v ≤ (highBound src.tol len : Int))

/-- Modelled from the spec: `peek_item(mark, space, offset)` checks a mark at
`offset` and a space at `offset + 1` without consuming. -/
def RemoteReceiveData.peek_item (src : RemoteReceiveData)
    (mark space offset : Nat) : Bool :=
  src.peekMark mark offset && src.peekSpace space (offset + 1)

/-- The header/field-extraction/checksum tail of `AOKProtocol::decode_packet`
(lines 113-134): run on the assembled 64-bit value.  The header cast is the
`static_cast<uint8_t>` of the source. -/
def parseValue (ul : Nat) : Option AOKData :=
  if (ul >>> 56) % 256 ≠ AOK_HEADER then none
  else
    let d : AOKData :=
      ⟨(ul >>> 32) &&& 0xffffff, (ul >>> 16) &&& 0xffff, (ul >>> 8) &&& 0xff⟩
    if d.checksum ≠ ul &&& 0xff then none else some d

/-- The bit-capture loop of `AOKProtocol::decode_packet`: iteration `i` sets
bit `63 - i`, so with the counted-down argument `n` the accumulator gains
`2 ^ n` on a one.  `expect_item` is `peek_item` followed by `advance 2` on
success; on failure the source is left at the failure point, as the C++
reference parameter is. -/
def decodeBits (src : RemoteReceiveData) (acc : Nat) :
    Nat → Option Nat × RemoteReceiveData
  | 0 => (some acc, src)
  | n + 1 =>
    if src.peek_item AOK_ONE_MARK AOK_ONE_SPACE 0 then
      decodeBits (src.advance 2) (acc + 2 ^ n) n
    else if src.peek_item AOK_ZERO_MARK AOK_ZERO_SPACE 0 then
      decodeBits (src.advance 2) acc n
    else (none, src)

/-- The `AOKProtocol::decode_packet` member: expect the packet-start item,
capture 64 bits, expect the suffix item, then validate header and checksum
on the assembled value.  The returned source reflects how far the C++
by-reference argument was advanced. -/
def decode_packet (src : RemoteReceiveData) :
    Option AOKData × RemoteReceiveData :=
  if src.peek_item AOK_PACKET_PREFIX_MARK AOK_ZERO_SPACE 0 then
    match decodeBits (src.advance 2) 0 AOK_PACKET_SIZE with
    | (none, s) => (none, s)
    | (some ul, s) =>
      if s.peek_item AOK_ONE_MARK AOK_PACKET_SUFFIX_SPACE 0 then
        (parseValue ul, s.advance 2)
      else (none, s)
  else (none, src)

/-- The `min_size` constant of `AOKProtocol::decode`: one frame's raw pulse
count (start item + 64 bit items + suffix item, two pulses each). -/
def min_size : Nat := 2 + (AOK_PACKET_SIZE * 2) + 2

/-- The inner resynchronization loop of `AOKProtocol::decode` (lines
152-168): skip data until a packet-start item is found, advancing by one
pulse when the item matches one pulse ahead (misalignment fix) and by a full
pair otherwise; bail out (`return {}` in the source, `none` here) when the
cursor passes `size - min_size`.  The loop advances at every step, so any
fuel above `size` makes the fuel pattern unreachable. -/
def scanSkip : RemoteReceiveData → Nat → Option RemoteReceiveData
  | _, 0 => none
  | src, fuel + 1 =>
    if src.peek_item AOK_PACKET_PREFIX_MARK AOK_ZERO_SPACE 0 then some src
    else
      let s :=
        if src.peek_item AOK_PACKET_PREFIX_MARK AOK_ZERO_SPACE 1 then
          src.advance 1
        else src.advance 2
      if s.size - min_size < s.index then none
      else scanSkip s fuel

/-- The outer scan loop of `AOKProtocol::decode` (lines 152-186): while the
cursor is below `size - min_size`, resynchronize, try to decode a frame,
collect every success; a bail-out of the inner loop aborts the whole decode
with an empty result, and a normal exit returns the first collected packet.
Every iteration that recurses consumed at least the packet-start item, so
any fuel above `size` makes the fuel pattern unreachable. -/
def decodeLoop : RemoteReceiveData → List AOKData → Nat → Option AOKData
  | _, _, 0 => none
  | src, packets, fuel + 1 =>
    if src.index < src.size - min_size then
      match scanSkip src (src.size + 1) with
      | none => none
      | some s =>
        match decode_packet s with
        | (some p, s') => decodeLoop s' (packets ++ [p]) fuel
        | (none, s') => decodeLoop s' packets fuel
    else packets.head?

/-- The `AOKProtocol::decode` member: reject streams shorter than
`min_size * AOK_REPEATS + AOK_PRE_POST_ZEROS * 2` raw pulses, otherwise run
the scan loop from cursor 0 with no collected packets. -/
def decode (data : List Int) (tol : Nat) : Option AOKData :=
  let src : RemoteReceiveData := ⟨data, 0, tol⟩
  if src.size < min_size * AOK_REPEATS + AOK_PRE_POST_ZEROS * 2 then none
  else decodeLoop src [] (src.size + 1)

/-! ## Display forms of the encoder output -/

/-- The pulses of the 64 frame bits, most significant first: the flat form of
`encodeBits`. -/
def bitPulses (b : Nat) : Nat → List Int
  | 0 => []
  | n + 1 =>
    (if b.testBit n then [(AOK_ONE_MARK : Int), -(AOK_ONE_SPACE : Int)]
     else [(AOK_ZERO_MARK : Int), -(AOK_ZERO_SPACE : Int)]) ++ bitPulses b n

/-- One complete frame as a flat pulse list. -/
def frameList (b : Nat) : List Int :=
  [(AOK_PACKET_PREFIX_MARK : Int), -(AOK_ZERO_SPACE : Int)] ++
    bitPulses b AOK_PACKET_SIZE ++
    [(AOK_ONE_MARK : Int), -(AOK_PACKET_SUFFIX_SPACE : Int)]

/-- The frames of a list of packets, concatenated. -/
def framesFor : List AOKData → List Int
  | [] => []
  | d :: ds => frameList (packet_bits d) ++ framesFor ds

/-- `n` zero items as a flat pulse list. -/
def zeroPulses (n : Nat) : List Int :=
  (List.replicate n [(AOK_ZERO_MARK : Int), -(AOK_ZERO_SPACE : Int)]).flatten

/-! ## Flattening the encoder -/

theorem item_eq (dst : List Int) (m s : Nat) :
    item dst m s = dst ++ [(m : Int), -(s : Int)] := rfl

theorem encodeBits_eq (b : Nat) :
    ∀ (n : Nat) (dst : List Int), encodeBits dst b n = dst ++ bitPulses b n
  | 0, dst => by simp [encodeBits, bitPulses]
  | n + 1, dst => by
    cases h : b.testBit n <;>
      simp [encodeBits, bitPulses, h, encodeBits_eq b n, item]

theorem encode_packet_eq (dst : List Int) (d : AOKData) :
    encode_packet dst d = dst ++ frameList (packet_bits d) := by
  simp [encode_packet, frameList, encodeBits_eq, item]

theorem repeatPackets_eq (d : AOKData) :
    ∀ (n : Nat) (dst : List Int),
      repeatPackets dst d n = dst ++ framesFor (List.replicate n d)
  | 0, dst => by simp [repeatPackets, framesFor]
  | n + 1, dst => by
    simp [repeatPackets, List.replicate_succ, framesFor,
      repeatPackets_eq d n, encode_packet_eq]

theorem zeroPulses_succ (n : Nat) :
    zeroPulses (n + 1) =
      [(AOK_ZERO_MARK : Int), -(AOK_ZERO_SPACE : Int)] ++ zeroPulses n := by
  simp [zeroPulses, List.replicate_succ]

theorem zeroItems_eq :
    ∀ (n : Nat) (dst : List Int), zeroItems dst n = dst ++ zeroPulses n
  | 0, dst => by simp [zeroItems, zeroPulses]
  | n + 1, dst => by
    simp [zeroItems, zeroPulses_succ, zeroItems_eq n, item]

theorem framesFor_append (xs ys : List AOKData) :
    framesFor (xs ++ ys) = framesFor xs ++ framesFor ys := by
  induction xs with
  | nil => simp [framesFor]
  | cons d xs ih => simp [framesFor, ih]

theorem bitPulses_length (b : Nat) : ∀ n, (bitPulses b n).length = 2 * n
  | 0 => rfl
  | n + 1 => by
    cases h : b.testBit n <;> simp [bitPulses, h, bitPulses_length b n] <;>
      omega

theorem frameList_length (b : Nat) : (frameList b).length = 132 := by
  simp [frameList, bitPulses_length, AOK_PACKET_SIZE]

theorem framesFor_length (Qs : List AOKData) :
    (framesFor Qs).length = 132 * Qs.length := by
  induction Qs with
  | nil => simp [framesFor]
  | cons d Qs ih => simp [framesFor, ih, frameList_length]; ring

theorem zeroPulses_length (n : Nat) : (zeroPulses n).length = 2 * n := by
  simp [zeroPulses]; omega

/-- The encoder output, flattened, when no release burst is appended. -/
theorem encode_eq_of_not_release (d : AOKData)
    (h1 : d.command ≠ COMMAND_UP) (h2 : d.command ≠ COMMAND_DOWN) :
    encode d =
      zeroPulses AOK_PRE_POST_ZEROS ++
        framesFor (List.replicate AOK_REPEATS d) ++
        zeroPulses AOK_PRE_POST_ZEROS := by
  simp [encode, h1, h2, zeroItems_eq, repeatPackets_eq]

/-- The encoder output, flattened, when the command is UP or DOWN: the same
frames followed by the frames of the packet with command RELEASE. -/
theorem encode_eq_of_release (d : AOKData)
    (h : d.command = COMMAND_UP ∨ d.command = COMMAND_DOWN) :
    encode d =
      zeroPulses AOK_PRE_POST_ZEROS ++
        (framesFor (List.replicate AOK_REPEATS d) ++
          framesFor
            (List.replicate AOK_REPEATS { d with command := COMMAND_RELEASE })) ++
        zeroPulses AOK_PRE_POST_ZEROS := by
  simp [encode, h, zeroItems_eq, repeatPackets_eq]

/-! ## Peeking into structured streams -/

theorem get?_append_len (pre l : List Int) (o : Nat) :
    (pre ++ l).get? (pre.length + o) = l.get? o := by
  rw [List.get?_eq_getElem?, List.get?_eq_getElem?,
    List.getElem?_append_right (by omega)]
  congr 1
  omega

theorem peek_mk (pre l : List Int) (o tol : Nat) :
    RemoteReceiveData.peek ⟨pre ++ l, pre.length, tol⟩ o = l.get? o := by
  show (pre ++ l).get? (pre.length + o) = l.get? o
  exact get?_append_len pre l o

/-! ## Tolerance window facts -/

theorem lowBound_le_self (tol len : Nat) : lowBound tol len ≤ len := by
  have h1 : len * (100 - tol) / 100 ≤ len * 100 / 100 :=
    Nat.div_le_div_right (Nat.mul_le_mul_left _ (by omega))
  simpa [lowBound, Nat.mul_div_cancel] using h1

theorem self_le_highBound (tol len : Nat) : len ≤ highBound tol len := by
  rw [highBound, Nat.le_div_iff_mul_le (by norm_num)]
  exact Nat.mul_le_mul_left _ (by omega)

theorem lowBound_5000 {tol : Nat} (h : tol ≤ 25) : 3750 ≤ lowBound tol 5000 := by
  unfold lowBound
  have h1 : 375000 ≤ 5000 * (100 - tol) := by omega
  calc 3750 = 375000 / 100 := by norm_num
    _ ≤ 5000 * (100 - tol) / 100 := Nat.div_le_div_right h1

theorem lowBound_600 {tol : Nat} (h : tol ≤ 25) : 450 ≤ lowBound tol 600 := by
  unfold lowBound
  have h1 : 45000 ≤ 600 * (100 - tol) := by omega
  calc 450 = 45000 / 100 := by norm_num
    _ ≤ 600 * (100 - tol) / 100 := Nat.div_le_div_right h1

/-! ## Match and mismatch lemmas -/

theorem peekMark_exact {src : RemoteReceiveData} {len offset : Nat}
    (h : src.peek offset = some (len : Int)) :
    src.peekMark len offset = true := by
  simp only [RemoteReceiveData.peekMark, h, Bool.and_eq_true, decide_eq_true_iff]
  refine ⟨⟨Int.ofNat_nonneg _, Int.ofNat_le.mpr (lowBound_le_self _ _)⟩,
    Int.ofNat_le.mpr (self_le_highBound _ _)⟩

theorem peekSpace_exact {src : RemoteReceiveData} {len offset : Nat}
    (h : src.peek offset = some (-(len : Int))) :
    src.peekSpace len offset = true := by
  simp only [RemoteReceiveData.peekSpace, h, Bool.and_eq_true, decide_eq_true_iff,
    neg_neg]
  refine ⟨⟨by omega, Int.ofNat_le.mpr (lowBound_le_self _ _)⟩,
    Int.ofNat_le.mpr (self_le_highBound _ _)⟩

theorem peekMark_low {src : RemoteReceiveData} {len offset : Nat} {v : Int}
    (h : src.peek offset = some v) (hv : v < (lowBound src.tol len : Int)) :
    src.peekMark len offset = false := by
  simp only [RemoteReceiveData.peekMark, h, Bool.and_eq_false_iff,
    decide_eq_false_iff_not, not_le]
  left
  right
  exact hv

theorem peekSpace_pos {src : RemoteReceiveData} {len offset : Nat} {v : Int}
    (h : src.peek offset = some v) (hv : 0 < v) :
    src.peekSpace len offset = false := by
  simp only [RemoteReceiveData.peekSpace, h, Bool.and_eq_false_iff,
    decide_eq_false_iff_not, not_le]
  left
  left
  exact hv

theorem peek_item_of_mark_false {src : RemoteReceiveData}
    {mark space offset : Nat} (h : src.peekMark mark offset = false) :
    src.peek_item mark space offset = false := by
  simp [RemoteReceiveData.peek_item, h]

theorem peek_item_of_space_false {src : RemoteReceiveData}
    {mark space offset : Nat} (h : src.peekSpace space (offset + 1) = false) :
    src.peek_item mark space offset = false := by
  simp [RemoteReceiveData.peek_item, h]

theorem peek_item_exact {src : RemoteReceiveData} {mark space offset : Nat}
    (h1 : src.peek offset = some (mark : Int))
    (h2 : src.peek (offset + 1) = some (-(space : Int))) :
    src.peek_item mark space offset = true := by
  simp [RemoteReceiveData.peek_item, peekMark_exact h1, peekSpace_exact h2]

/-! ## Decoding the 64 frame bits -/

theorem div_mod_of_testBit_true {b n : Nat} (h : b.testBit n = true) :
    b / 2 ^ n % 2 = 1 := by
  rw [Nat.testBit_to_div_mod] at h
  exact of_decide_eq_true h

theorem div_mod_of_testBit_false {b n : Nat} (h : b.testBit n = false) :
    b / 2 ^ n % 2 = 0 := by
  rw [Nat.testBit_to_div_mod] at h
  have h2 := of_decide_eq_false h
  omega

theorem mod_two_pow_succ (b n : Nat) :
    b % 2 ^ (n + 1) = 2 ^ n * (b / 2 ^ n % 2) + b % 2 ^ n := by
  rw [pow_succ, Nat.mod_mul]
  ring

/-- Running the bit-capture loop over the pulses that the bit loop of the
encoder produced reconstructs the low `n` bits of the encoded value and
advances the cursor by `2 * n` pulses. -/
theorem decodeBits_spec {tol : Nat} (htol : tol ≤ 25) :
    ∀ (n b acc : Nat) (pre rest : List Int),
      decodeBits ⟨pre ++ (bitPulses b n ++ rest), pre.length, tol⟩ acc n =
        (some (acc + b % 2 ^ n),
          ⟨pre ++ (bitPulses b n ++ rest), pre.length + 2 * n, tol⟩)
  | 0, b, acc, pre, rest => by simp [decodeBits, bitPulses, Nat.mod_one]
  | n + 1, b, acc, pre, rest => by
    cases h : b.testBit n with
    | true =>
      have hbp : bitPulses b (n + 1) =
          [(AOK_ONE_MARK : Int), -(AOK_ONE_SPACE : Int)] ++ bitPulses b n := by
        simp [bitPulses, h]
      rw [hbp]
      have hp0 : RemoteReceiveData.peek
          ⟨pre ++ (([(AOK_ONE_MARK : Int), -(AOK_ONE_SPACE : Int)] ++
            bitPulses b n) ++ rest), pre.length, tol⟩ 0 =
          some (AOK_ONE_MARK : Int) := by
        rw [peek_mk]
        rfl
      have hp1 : RemoteReceiveData.peek
          ⟨pre ++ (([(AOK_ONE_MARK : Int), -(AOK_ONE_SPACE : Int)] ++
            bitPulses b n) ++ rest), pre.length, tol⟩ 1 =
          some (-(AOK_ONE_SPACE : Int)) := by
        rw [peek_mk]
        rfl
      have hitem := peek_item_exact hp0 hp1
      rw [decodeBits, hitem]
      simp only [if_true, RemoteReceiveData.advance]
      have hassoc : pre ++ (([(AOK_ONE_MARK : Int), -(AOK_ONE_SPACE : Int)] ++
          bitPulses b n) ++ rest) =
          (pre ++ [(AOK_ONE_MARK : Int), -(AOK_ONE_SPACE : Int)]) ++
            (bitPulses b n ++ rest) := by
        simp
      have hlen : pre.length + 2 =
          (pre ++ [(AOK_ONE_MARK : Int), -(AOK_ONE_SPACE : Int)]).length := by
        simp
      rw [hassoc, hlen, decodeBits_spec htol n b (acc + 2 ^ n)]
      have hmod : b % 2 ^ (n + 1) = 2 ^ n + b % 2 ^ n := by
        rw [mod_two_pow_succ, div_mod_of_testBit_true h]
        ring
      have hidx : (pre ++ [(AOK_ONE_MARK : Int), -(AOK_ONE_SPACE : Int)]).length +
          2 * n = pre.length + 2 * (n + 1) := by
        simp
        omega
      rw [hidx, hmod, Nat.add_assoc]
    | false =>
      have hbp : bitPulses b (n + 1) =
          [(AOK_ZERO_MARK : Int), -(AOK_ZERO_SPACE : Int)] ++ bitPulses b n := by
        simp [bitPulses, h]
      rw [hbp]
      have hp0 : RemoteReceiveData.peek
          ⟨pre ++ (([(AOK_ZERO_MARK : Int), -(AOK_ZERO_SPACE : Int)] ++
            bitPulses b n) ++ rest), pre.length, tol⟩ 0 =
          some (AOK_ZERO_MARK : Int) := by
        rw [peek_mk]
        rfl
      have hp1 : RemoteReceiveData.peek
          ⟨pre ++ (([(AOK_ZERO_MARK : Int), -(AOK_ZERO_SPACE : Int)] ++
            bitPulses b n) ++ rest), pre.length, tol⟩ 1 =
          some (-(AOK_ZERO_SPACE : Int)) := by
        rw [peek_mk]
        rfl
      have hmarkOne : RemoteReceiveData.peekMark
          ⟨pre ++ (([(AOK_ZERO_MARK : Int), -(AOK_ZERO_SPACE : Int)] ++
            bitPulses b n) ++ rest), pre.length, tol⟩ AOK_ONE_MARK 0 = false := by
        refine peekMark_low hp0 ?_
        have h450 : 450 ≤ lowBound tol AOK_ONE_MARK := lowBound_600 htol
        show (AOK_ZERO_MARK : Int) < (lowBound tol AOK_ONE_MARK : Int)
        have : (290 : Nat) < lowBound tol AOK_ONE_MARK := by omega
        exact_mod_cast Int.ofNat_lt.mpr this
      have hitemOne := @peek_item_of_mark_false _ _ AOK_ONE_SPACE _ hmarkOne
      have hitemZero := peek_item_exact hp0 hp1
      rw [decodeBits, hitemOne, hitemZero]
      simp only [Bool.false_eq_true, if_false, if_true, RemoteReceiveData.advance]
      have hassoc : pre ++ (([(AOK_ZERO_MARK : Int), -(AOK_ZERO_SPACE : Int)] ++
          bitPulses b n) ++ rest) =
          (pre ++ [(AOK_ZERO_MARK : Int), -(AOK_ZERO_SPACE : Int)]) ++
            (bitPulses b n ++ rest) := by
        simp
      have hlen : pre.length + 2 =
          (pre ++ [(AOK_ZERO_MARK : Int), -(AOK_ZERO_SPACE : Int)]).length := by
        simp
      rw [hassoc, hlen, decodeBits_spec htol n b acc]
      have hmod : b % 2 ^ (n + 1) = b % 2 ^ n := by
        rw [mod_two_pow_succ, div_mod_of_testBit_false h]
        ring
      have hidx : (pre ++ [(AOK_ZERO_MARK : Int), -(AOK_ZERO_SPACE : Int)]).length +
          2 * n = pre.length + 2 * (n + 1) := by
        simp
        omega
      rw [hidx, hmod]

/-! ## Extracting fields from the 64-bit frame value -/

theorem shiftRight_or_distrib (x y n : Nat) :
    (x ||| y) >>> n = (x >>> n) ||| (y >>> n) := by
  apply Nat.eq_of_testBit_eq
  intro i
  simp [Nat.testBit_shiftRight, Nat.testBit_or]

theorem AOKData.checksum_lt (d : AOKData) : d.checksum < 256 :=
  Nat.mod_lt _ (by norm_num)

theorem packet_bits_lt {d : AOKData} (hd : d.Valid) :
    packet_bits d < 2 ^ 64 := by
  obtain ⟨h1, h2, h3⟩ := hd
  have hc := d.checksum_lt
  unfold packet_bits AOK_HEADER
  refine Nat.or_lt_two_pow (Nat.or_lt_two_pow (Nat.or_lt_two_pow
    (Nat.or_lt_two_pow ?_ ?_) ?_) ?_) ?_ <;>
    (try simp only [Nat.shiftLeft_eq]) <;> omega

theorem packet_bits_header {d : AOKData} (hd : d.Valid) :
    packet_bits d >>> 56 = AOK_HEADER := by
  obtain ⟨h1, h2, h3⟩ := hd
  have hc := d.checksum_lt
  unfold packet_bits
  rw [shiftRight_or_distrib, shiftRight_or_distrib, shiftRight_or_distrib,
    shiftRight_or_distrib]
  have a1 : (AOK_HEADER <<< 56) >>> 56 = AOK_HEADER := by decide
  have a2 : d.device <<< 32 >>> 56 = 0 := by
    rw [Nat.shiftLeft_eq, Nat.shiftRight_eq_div_pow]
    omega
  have a3 : d.channel <<< 16 >>> 56 = 0 := by
    rw [Nat.shiftLeft_eq, Nat.shiftRight_eq_div_pow]
    omega
  have a4 : d.command <<< 8 >>> 56 = 0 := by
    rw [Nat.shiftLeft_eq, Nat.shiftRight_eq_div_pow]
    omega
  have a5 : d.checksum >>> 56 = 0 := by
    rw [Nat.shiftRight_eq_div_pow]
    omega
  rw [a1, a2, a3, a4, a5]
  simp

theorem packet_bits_device {d : AOKData} (hd : d.Valid) :
    (packet_bits d >>> 32) &&& 0xffffff = d.device := by
  obtain ⟨h1, h2, h3⟩ := hd
  have hc := d.checksum_lt
  unfold packet_bits
  rw [shiftRight_or_distrib, shiftRight_or_distrib, shiftRight_or_distrib,
    shiftRight_or_distrib]
  rw [Nat.and_distrib_right, Nat.and_distrib_right, Nat.and_distrib_right,
    Nat.and_distrib_right]
  rw [show (0xffffff : Nat) = 2 ^ 24 - 1 by norm_num]
  rw [Nat.and_pow_two_sub_one_eq_mod, Nat.and_pow_two_sub_one_eq_mod,
    Nat.and_pow_two_sub_one_eq_mod, Nat.and_pow_two_sub_one_eq_mod,
    Nat.and_pow_two_sub_one_eq_mod]
  have a1 : (AOK_HEADER <<< 56) >>> 32 % 2 ^ 24 = 0 := by decide
  have a2 : d.device <<< 32 >>> 32 % 2 ^ 24 = d.device := by
    rw [Nat.shiftLeft_eq, Nat.shiftRight_eq_div_pow]
    omega
  have a3 : d.channel <<< 16 >>> 32 % 2 ^ 24 = 0 := by
    rw [Nat.shiftLeft_eq, Nat.shiftRight_eq_div_pow]
    omega
  have a4 : d.command <<< 8 >>> 32 % 2 ^ 24 = 0 := by
    rw [Nat.shiftLeft_eq, Nat.shiftRight_eq_div_pow]
    omega
  have a5 : d.checksum >>> 32 % 2 ^ 24 = 0 := by
    rw [Nat.shiftRight_eq_div_pow]
    omega
  rw [a1, a2, a3, a4, a5]
  simp

theorem packet_bits_channel {d : AOKData} (hd : d.Valid) :
    (packet_bits d >>> 16) &&& 0xffff = d.channel := by
  obtain ⟨h1, h2, h3⟩ := hd
  have hc := d.checksum_lt
  unfold packet_bits
  rw [shiftRight_or_distrib, shiftRight_or_distrib, shiftRight_or_distrib,
    shiftRight_or_distrib]
  rw [Nat.and_distrib_right, Nat.and_distrib_right, Nat.and_distrib_right,
    Nat.and_distrib_right]
  rw [show (0xffff : Nat) = 2 ^ 16 - 1 by norm_num]
  rw [Nat.and_pow_two_sub_one_eq_mod, Nat.and_pow_two_sub_one_eq_mod,
    Nat.and_pow_two_sub_one_eq_mod, Nat.and_pow_two_sub_one_eq_mod,
    Nat.and_pow_two_sub_one_eq_mod]
  have a1 : (AOK_HEADER <<< 56) >>> 16 % 2 ^ 16 = 0 := by decide
  have a2 : d.device <<< 32 >>> 16 % 2 ^ 16 = 0 := by
    rw [Nat.shiftLeft_eq, Nat.shiftRight_eq_div_pow]
    omega
  have a3 : d.channel <<< 16 >>> 16 % 2 ^ 16 = d.channel := by
    rw [Nat.shiftLeft_eq, Nat.shiftRight_eq_div_pow]
    omega
  have a4 : d.command <<< 8 >>> 16 % 2 ^ 16 = 0 := by
    rw [Nat.shiftLeft_eq, Nat.shiftRight_eq_div_pow]
    omega
  have a5 : d.checksum >>> 16 % 2 ^ 16 = 0 := by
    rw [Nat.shiftRight_eq_div_pow]
    omega
  rw [a1, a2, a3, a4, a5]
  simp

theorem packet_bits_command {d : AOKData} (hd : d.Valid) :
    (packet_bits d >>> 8) &&& 0xff = d.command := by
  obtain ⟨h1, h2, h3⟩ := hd
  have hc := d.checksum_lt
  unfold packet_bits
  rw [shiftRight_or_distrib, shiftRight_or_distrib, shiftRight_or_distrib,
    shiftRight_or_distrib]
  rw [Nat.and_distrib_right, Nat.and_distrib_right, Nat.and_distrib_right,
    Nat.and_distrib_right]
  rw [show (0xff : Nat) = 2 ^ 8 - 1 by norm_num]
  rw [Nat.and_pow_two_sub_one_eq_mod, Nat.and_pow_two_sub_one_eq_mod,
    Nat.and_pow_two_sub_one_eq_mod, Nat.and_pow_two_sub_one_eq_mod,
    Nat.and_pow_two_sub_one_eq_mod]
  have a1 : (AOK_HEADER <<< 56) >>> 8 % 2 ^ 8 = 0 := by decide
  have a2 : d.device <<< 32 >>> 8 % 2 ^ 8 = 0 := by
    rw [Nat.shiftLeft_eq, Nat.shiftRight_eq_div_pow]
    omega
  have a3 : d.channel <<< 16 >>> 8 % 2 ^ 8 = 0 := by
    rw [Nat.shiftLeft_eq, Nat.shiftRight_eq_div_pow]
    omega
  have a4 : d.command <<< 8 >>> 8 % 2 ^ 8 = d.command := by
    rw [Nat.shiftLeft_eq, Nat.shiftRight_eq_div_pow]
    omega
  have a5 : d.checksum >>> 8 % 2 ^ 8 = 0 := by
    rw [Nat.shiftRight_eq_div_pow]
    omega
  rw [a1, a2, a3, a4, a5]
  simp

theorem packet_bits_checksum (d : AOKData) :
    packet_bits d &&& 0xff = d.checksum := by
  have hc := d.checksum_lt
  unfold packet_bits
  rw [Nat.and_distrib_right, Nat.and_distrib_right, Nat.and_distrib_right,
    Nat.and_distrib_right]
  rw [show (0xff : Nat) = 2 ^ 8 - 1 by norm_num]
  rw [Nat.and_pow_two_sub_one_eq_mod, Nat.and_pow_two_sub_one_eq_mod,
    Nat.and_pow_two_sub_one_eq_mod, Nat.and_pow_two_sub_one_eq_mod,
    Nat.and_pow_two_sub_one_eq_mod]
  have a1 : (AOK_HEADER <<< 56) % 2 ^ 8 = 0 := by decide
  have a2 : d.device <<< 32 % 2 ^ 8 = 0 := by
    rw [Nat.shiftLeft_eq]
    omega
  have a3 : d.channel <<< 16 % 2 ^ 8 = 0 := by
    rw [Nat.shiftLeft_eq]
    omega
  have a4 : d.command <<< 8 % 2 ^ 8 = 0 := by
    rw [Nat.shiftLeft_eq]
    omega
  have a5 : d.checksum % 2 ^ 8 = d.checksum := by
    omega
  rw [a1, a2, a3, a4, a5]
  simp

/-- Running the header/extraction/checksum tail on the frame value of a valid
packet yields exactly that packet. -/
theorem parseValue_packet_bits {d : AOKData} (hd : d.Valid) :
    parseValue (packet_bits d) = some d := by
  have hh := packet_bits_header hd
  have hdev := packet_bits_device hd
  have hch := packet_bits_channel hd
  have hcmd := packet_bits_command hd
  have hcks := packet_bits_checksum d
  unfold parseValue
  rw [hh]
  rw [hdev, hch, hcmd, hcks]
  simp [AOK_HEADER]

/-! ## Decoding one whole frame -/

/-- `decode_packet`, run at the start of the frame of a valid packet,
returns the packet and advances the cursor by the 132 pulses of the frame. -/
theorem decode_packet_frame {tol : Nat} (htol : tol ≤ 25) {d : AOKData}
    (hd : d.Valid) (pre rest : List Int) :
    decode_packet
        ⟨pre ++ (frameList (packet_bits d) ++ rest), pre.length, tol⟩ =
      (some d,
        ⟨pre ++ (frameList (packet_bits d) ++ rest), pre.length + 132, tol⟩) := by
  have hb := packet_bits_lt hd
  have hp0 : RemoteReceiveData.peek
      ⟨pre ++ (frameList (packet_bits d) ++ rest), pre.length, tol⟩ 0 =
      some (AOK_PACKET_PREFIX_MARK : Int) := by
    rw [peek_mk]
    simp [frameList]
  have hp1 : RemoteReceiveData.peek
      ⟨pre ++ (frameList (packet_bits d) ++ rest), pre.length, tol⟩ 1 =
      some (-(AOK_ZERO_SPACE : Int)) := by
    rw [peek_mk]
    simp [frameList]
  have hpi := peek_item_exact hp0 hp1
  rw [decode_packet, hpi]
  simp only [if_true, RemoteReceiveData.advance]
  have hassoc1 : pre ++ (frameList (packet_bits d) ++ rest) =
      (pre ++ [(AOK_PACKET_PREFIX_MARK : Int), -(AOK_ZERO_SPACE : Int)]) ++
        (bitPulses (packet_bits d) AOK_PACKET_SIZE ++
          ([(AOK_ONE_MARK : Int), -(AOK_PACKET_SUFFIX_SPACE : Int)] ++ rest)) := by
    simp [frameList]
  have hlen1 : pre.length + 2 =
      (pre ++ [(AOK_PACKET_PREFIX_MARK : Int), -(AOK_ZERO_SPACE : Int)]).length := by
    simp
  rw [hassoc1, hlen1, decodeBits_spec htol]
  have hmod : 0 + packet_bits d % 2 ^ AOK_PACKET_SIZE = packet_bits d := by
    rw [Nat.zero_add]
    exact Nat.mod_eq_of_lt hb
  rw [hmod]
  have hassoc2 :
      (pre ++ [(AOK_PACKET_PREFIX_MARK : Int), -(AOK_ZERO_SPACE : Int)]) ++
        (bitPulses (packet_bits d) AOK_PACKET_SIZE ++
          ([(AOK_ONE_MARK : Int), -(AOK_PACKET_SUFFIX_SPACE : Int)] ++ rest)) =
      ((pre ++ [(AOK_PACKET_PREFIX_MARK : Int), -(AOK_ZERO_SPACE : Int)]) ++
        bitPulses (packet_bits d) AOK_PACKET_SIZE) ++
        ([(AOK_ONE_MARK : Int), -(AOK_PACKET_SUFFIX_SPACE : Int)] ++ rest) := by
    simp
  have hlen2 :
      (pre ++ [(AOK_PACKET_PREFIX_MARK : Int), -(AOK_ZERO_SPACE : Int)]).length +
        2 * AOK_PACKET_SIZE =
      ((pre ++ [(AOK_PACKET_PREFIX_MARK : Int), -(AOK_ZERO_SPACE : Int)]) ++
        bitPulses (packet_bits d) AOK_PACKET_SIZE).length := by
    simp [bitPulses_length]
    omega
  rw [hassoc2, hlen2]
  have hp2 : RemoteReceiveData.peek
      ⟨((pre ++ [(AOK_PACKET_PREFIX_MARK : Int), -(AOK_ZERO_SPACE : Int)]) ++
          bitPulses (packet_bits d) AOK_PACKET_SIZE) ++
          ([(AOK_ONE_MARK : Int), -(AOK_PACKET_SUFFIX_SPACE : Int)] ++ rest),
        ((pre ++ [(AOK_PACKET_PREFIX_MARK : Int), -(AOK_ZERO_SPACE : Int)]) ++
          bitPulses (packet_bits d) AOK_PACKET_SIZE).length, tol⟩ 0 =
      some (AOK_ONE_MARK : Int) := by
    rw [peek_mk]
    rfl
  have hp3 : RemoteReceiveData.peek
      ⟨((pre ++ [(AOK_PACKET_PREFIX_MARK : Int), -(AOK_ZERO_SPACE : Int)]) ++
          bitPulses (packet_bits d) AOK_PACKET_SIZE) ++
          ([(AOK_ONE_MARK : Int), -(AOK_PACKET_SUFFIX_SPACE : Int)] ++ rest),
        ((pre ++ [(AOK_PACKET_PREFIX_MARK : Int), -(AOK_ZERO_SPACE : Int)]) ++
          bitPulses (packet_bits d) AOK_PACKET_SIZE).length, tol⟩ 1 =
      some (-(AOK_PACKET_SUFFIX_SPACE : Int)) := by
    rw [peek_mk]
    rfl
  have hpi2 := peek_item_exact hp2 hp3
  simp only [hpi2, if_true, RemoteReceiveData.advance, parseValue_packet_bits hd]
  have hidx : ((pre ++ [(AOK_PACKET_PREFIX_MARK : Int), -(AOK_ZERO_SPACE : Int)]) ++
      bitPulses (packet_bits d) AOK_PACKET_SIZE).length + 2 = pre.length + 132 := by
    simp only [List.length_append, List.length_cons, List.length_nil,
      bitPulses_length, AOK_PACKET_SIZE]
  rw [hidx]

/-! ## Resynchronization scan -/

theorem scanSkip_found {src : RemoteReceiveData} (fuel : Nat)
    (h : src.peek_item AOK_PACKET_PREFIX_MARK AOK_ZERO_SPACE 0 = true) :
    scanSkip src (fuel + 1) = some src := by
  simp [scanSkip, h]

theorem peek_advance (src : RemoteReceiveData) (n o : Nat) :
    (src.advance n).peek o = src.peek (n + o) := by
  simp [RemoteReceiveData.peek, RemoteReceiveData.advance, Nat.add_assoc]

theorem peek_item_advance (src : RemoteReceiveData) (n m s o : Nat) :
    (src.advance n).peek_item m s o = src.peek_item m s (n + o) := by
  unfold RemoteReceiveData.peek_item RemoteReceiveData.peekMark
    RemoteReceiveData.peekSpace
  rw [peek_advance, peek_advance]
  have h1 : n + o + 1 = n + (o + 1) := by omega
  rw [h1]
  rfl

theorem AOK_ZERO_MARK_lt_lowBound {tol : Nat} (htol : tol ≤ 25) :
    ((AOK_ZERO_MARK : Nat) : Int) <
      ((lowBound tol AOK_PACKET_PREFIX_MARK : Nat) : Int) := by
  have h := lowBound_5000 htol
  have h2 : (AOK_ZERO_MARK : Nat) < lowBound tol AOK_PACKET_PREFIX_MARK := by
    show (290 : Nat) < lowBound tol 5000
    omega
  exact_mod_cast h2

/-- Scanning over `k` leading zero items reaches the packet-start item `2 * k`
pulses further on, provided enough data follows for the bail-out check never
to fire. -/
theorem scanSkip_zeros {tol : Nat} (htol : tol ≤ 25) :
    ∀ (k : Nat) (pre rest : List Int) (fuel : Nat), k < fuel →
      130 ≤ rest.length →
      scanSkip ⟨pre ++ (zeroPulses k ++
          ([(AOK_PACKET_PREFIX_MARK : Int), -(AOK_ZERO_SPACE : Int)] ++ rest)),
        pre.length, tol⟩ fuel =
        some ⟨pre ++ (zeroPulses k ++
          ([(AOK_PACKET_PREFIX_MARK : Int), -(AOK_ZERO_SPACE : Int)] ++ rest)),
          pre.length + 2 * k, tol⟩
  | 0, pre, rest, fuel, hf, hr => by
    cases fuel with
    | zero => omega
    | succ f =>
      have hp0 : RemoteReceiveData.peek ⟨pre ++ (zeroPulses 0 ++
          ([(AOK_PACKET_PREFIX_MARK : Int), -(AOK_ZERO_SPACE : Int)] ++ rest)),
          pre.length, tol⟩ 0 = some (AOK_PACKET_PREFIX_MARK : Int) := by
        rw [peek_mk]
        rfl
      have hp1 : RemoteReceiveData.peek ⟨pre ++ (zeroPulses 0 ++
          ([(AOK_PACKET_PREFIX_MARK : Int), -(AOK_ZERO_SPACE : Int)] ++ rest)),
          pre.length, tol⟩ 1 = some (-(AOK_ZERO_SPACE : Int)) := by
        rw [peek_mk]
        rfl
      rw [scanSkip_found f (peek_item_exact hp0 hp1)]
      simp
  | k + 1, pre, rest, fuel, hf, hr => by
    cases fuel with
    | zero => omega
    | succ f =>
      rw [zeroPulses_succ]
      have hp0 : RemoteReceiveData.peek ⟨pre ++
          (([(AOK_ZERO_MARK : Int), -(AOK_ZERO_SPACE : Int)] ++ zeroPulses k) ++
            ([(AOK_PACKET_PREFIX_MARK : Int), -(AOK_ZERO_SPACE : Int)] ++ rest)),
          pre.length, tol⟩ 0 = some (AOK_ZERO_MARK : Int) := by
        rw [peek_mk]
        rfl
      have hp1 : RemoteReceiveData.peek ⟨pre ++
          (([(AOK_ZERO_MARK : Int), -(AOK_ZERO_SPACE : Int)] ++ zeroPulses k) ++
            ([(AOK_PACKET_PREFIX_MARK : Int), -(AOK_ZERO_SPACE : Int)] ++ rest)),
          pre.length, tol⟩ 1 = some (-(AOK_ZERO_SPACE : Int)) := by
        rw [peek_mk]
        rfl
      have h0 : RemoteReceiveData.peek_item ⟨pre ++
          (([(AOK_ZERO_MARK : Int), -(AOK_ZERO_SPACE : Int)] ++ zeroPulses k) ++
            ([(AOK_PACKET_PREFIX_MARK : Int), -(AOK_ZERO_SPACE : Int)] ++ rest)),
          pre.length, tol⟩ AOK_PACKET_PREFIX_MARK AOK_ZERO_SPACE 0 = false :=
        peek_item_of_mark_false
          (peekMark_low hp0 (AOK_ZERO_MARK_lt_lowBound htol))
      have h1 : RemoteReceiveData.peek_item ⟨pre ++
          (([(AOK_ZERO_MARK : Int), -(AOK_ZERO_SPACE : Int)] ++ zeroPulses k) ++
            ([(AOK_PACKET_PREFIX_MARK : Int), -(AOK_ZERO_SPACE : Int)] ++ rest)),
          pre.length, tol⟩ AOK_PACKET_PREFIX_MARK AOK_ZERO_SPACE 1 = false := by
        refine peek_item_of_mark_false (peekMark_low hp1 ?_)
        calc (-(AOK_ZERO_SPACE : Int)) < 0 := by
              show -(600 : Int) < 0
              norm_num
          _ ≤ ((lowBound tol AOK_PACKET_PREFIX_MARK : Nat) : Int) :=
              Int.ofNat_nonneg _
      rw [scanSkip]
      rw [h0, h1]
      simp only [Bool.false_eq_true, if_false]
      have hbail : ¬((⟨pre ++
          (([(AOK_ZERO_MARK : Int), -(AOK_ZERO_SPACE : Int)] ++ zeroPulses k) ++
            ([(AOK_PACKET_PREFIX_MARK : Int), -(AOK_ZERO_SPACE : Int)] ++ rest)),
          pre.length, tol⟩ : RemoteReceiveData).advance 2).size - min_size <
          ((⟨pre ++
          (([(AOK_ZERO_MARK : Int), -(AOK_ZERO_SPACE : Int)] ++ zeroPulses k) ++
            ([(AOK_PACKET_PREFIX_MARK : Int), -(AOK_ZERO_SPACE : Int)] ++ rest)),
          pre.length, tol⟩ : RemoteReceiveData).advance 2).index := by
        simp only [RemoteReceiveData.advance, RemoteReceiveData.size,
          List.length_append, List.length_cons, List.length_nil,
          zeroPulses_length, min_size, AOK_PACKET_SIZE]
        omega
      rw [if_neg hbail]
      have hassoc : pre ++
          (([(AOK_ZERO_MARK : Int), -(AOK_ZERO_SPACE : Int)] ++ zeroPulses k) ++
            ([(AOK_PACKET_PREFIX_MARK : Int), -(AOK_ZERO_SPACE : Int)] ++ rest)) =
          (pre ++ [(AOK_ZERO_MARK : Int), -(AOK_ZERO_SPACE : Int)]) ++
            (zeroPulses k ++
              ([(AOK_PACKET_PREFIX_MARK : Int), -(AOK_ZERO_SPACE : Int)] ++ rest)) := by
        simp
      have hadv : ((⟨pre ++
          (([(AOK_ZERO_MARK : Int), -(AOK_ZERO_SPACE : Int)] ++ zeroPulses k) ++
            ([(AOK_PACKET_PREFIX_MARK : Int), -(AOK_ZERO_SPACE : Int)] ++ rest)),
          pre.length, tol⟩ : RemoteReceiveData).advance 2) =
          ⟨(pre ++ [(AOK_ZERO_MARK : Int), -(AOK_ZERO_SPACE : Int)]) ++
            (zeroPulses k ++
              ([(AOK_PACKET_PREFIX_MARK : Int), -(AOK_ZERO_SPACE : Int)] ++ rest)),
            (pre ++ [(AOK_ZERO_MARK : Int), -(AOK_ZERO_SPACE : Int)]).length,
            tol⟩ := by
        simp [RemoteReceiveData.advance, hassoc]
      rw [hadv, scanSkip_zeros htol k _ rest f (by omega) hr]
      have hidx : (pre ++ [(AOK_ZERO_MARK : Int), -(AOK_ZERO_SPACE : Int)]).length +
          2 * k = pre.length + 2 * (k + 1) := by
        simp
        omega
      rw [hidx, hassoc]

/-- When no packet-start item matches anywhere ahead, the resynchronization
scan eventually crosses the bail-out threshold and aborts. -/
theorem scanSkip_noise :
    ∀ (fuel : Nat) (src : RemoteReceiveData),
      (∀ j, src.peek_item AOK_PACKET_PREFIX_MARK AOK_ZERO_SPACE j = false) →
      src.size - min_size < src.index + 2 * fuel →
      scanSkip src fuel = none
  | 0, src, hnoise, hfuel => rfl
  | fuel + 1, src, hnoise, hfuel => by
    rw [scanSkip]
    rw [hnoise 0, hnoise 1]
    simp only [Bool.false_eq_true, if_false]
    by_cases hbail : (src.advance 2).size - min_size < (src.advance 2).index
    · rw [if_pos hbail]
    · rw [if_neg hbail]
      refine scanSkip_noise fuel (src.advance 2) ?_ ?_
      · intro j
        rw [peek_item_advance]
        exact hnoise (2 + j)
      · simp only [RemoteReceiveData.advance, RemoteReceiveData.size] at *
        omega

/-- A normal exit of the outer scan loop returns the first collected packet. -/
theorem decodeLoop_exit (src : RemoteReceiveData) (ps : List AOKData)
    (fuel : Nat) (h : ¬ src.index < src.size - min_size) :
    decodeLoop src ps (fuel + 1) = ps.head? := by
  rw [decodeLoop, if_neg h]

/-- The outer scan loop, positioned at the start of the frames of a list of
valid packets followed by the postamble, appends those packets to the
collection and returns the head of the collection. -/
theorem decodeLoop_frames {tol : Nat} (htol : tol ≤ 25) :
    ∀ (Qs ps : List AOKData) (pre : List Int) (fuel : Nat), ps ≠ [] →
      (∀ Q ∈ Qs, Q.Valid) → Qs.length < fuel →
      decodeLoop ⟨pre ++ (framesFor Qs ++ zeroPulses AOK_PRE_POST_ZEROS),
        pre.length, tol⟩ ps fuel = ps.head?
  | [], ps, pre, fuel, hps, hQs, hf => by
    cases fuel with
    | zero => omega
    | succ f =>
      refine decodeLoop_exit _ _ _ ?_
      simp only [RemoteReceiveData.size, List.length_append, framesFor,
        List.length_nil, zeroPulses_length, min_size, AOK_PACKET_SIZE,
        AOK_PRE_POST_ZEROS]
      omega
  | Q :: Qs, ps, pre, fuel, hps, hQs, hf => by
    cases fuel with
    | zero => omega
    | succ f =>
      have hQ : Q.Valid := hQs Q (by simp)
      have hQs' : ∀ R ∈ Qs, R.Valid := fun R hR => hQs R (by simp [hR])
      have hdata : framesFor (Q :: Qs) ++ zeroPulses AOK_PRE_POST_ZEROS =
          frameList (packet_bits Q) ++
            (framesFor Qs ++ zeroPulses AOK_PRE_POST_ZEROS) := by
        simp [framesFor]
      rw [hdata]
      rw [decodeLoop]
      have hcond : (⟨pre ++ (frameList (packet_bits Q) ++
          (framesFor Qs ++ zeroPulses AOK_PRE_POST_ZEROS)), pre.length, tol⟩ :
          RemoteReceiveData).index <
          (⟨pre ++ (frameList (packet_bits Q) ++
          (framesFor Qs ++ zeroPulses AOK_PRE_POST_ZEROS)), pre.length, tol⟩ :
          RemoteReceiveData).size - min_size := by
        simp only [RemoteReceiveData.size, List.length_append, frameList_length,
          framesFor_length, zeroPulses_length, min_size, AOK_PACKET_SIZE,
          AOK_PRE_POST_ZEROS]
        omega
      rw [if_pos hcond]
      have hp0 : RemoteReceiveData.peek ⟨pre ++ (frameList (packet_bits Q) ++
          (framesFor Qs ++ zeroPulses AOK_PRE_POST_ZEROS)), pre.length, tol⟩ 0 =
          some (AOK_PACKET_PREFIX_MARK : Int) := by
        rw [peek_mk]
        simp [frameList]
      have hp1 : RemoteReceiveData.peek ⟨pre ++ (frameList (packet_bits Q) ++
          (framesFor Qs ++ zeroPulses AOK_PRE_POST_ZEROS)), pre.length, tol⟩ 1 =
          some (-(AOK_ZERO_SPACE : Int)) := by
        rw [peek_mk]
        simp [frameList]
      rw [scanSkip_found _ (peek_item_exact hp0 hp1)]
      dsimp only
      rw [decode_packet_frame htol hQ]
      dsimp only
      have hidx : pre.length + 132 = (pre ++ frameList (packet_bits Q)).length := by
        simp [frameList_length]
      have hassoc : pre ++ (frameList (packet_bits Q) ++
          (framesFor Qs ++ zeroPulses AOK_PRE_POST_ZEROS)) =
          (pre ++ frameList (packet_bits Q)) ++
            (framesFor Qs ++ zeroPulses AOK_PRE_POST_ZEROS) := by
        simp
      rw [hidx, hassoc]
      rw [decodeLoop_frames htol Qs (ps ++ [Q]) (pre ++ frameList (packet_bits Q))
        f (by simp) hQs' (by simpa using hf)]
      cases ps with
      | nil => exact absurd rfl hps
      | cons a t => simp

/-- The full scan over a stream of `k` leading zero items, the frames of the
packets `Q :: Qs`, and the postamble: the first packet is returned. -/
theorem decodeLoop_full {tol : Nat} (htol : tol ≤ 25) (k : Nat) (Q : AOKData)
    (Qs : List AOKData) (hQ : Q.Valid) (hQs : ∀ R ∈ Qs, R.Valid) (fuel : Nat)
    (hfuel : Qs.length < fuel) :
    decodeLoop ⟨zeroPulses k ++
        (framesFor (Q :: Qs) ++ zeroPulses AOK_PRE_POST_ZEROS), 0, tol⟩ []
      (fuel + 1) = some Q := by
  rw [decodeLoop]
  have hcond : (⟨zeroPulses k ++
      (framesFor (Q :: Qs) ++ zeroPulses AOK_PRE_POST_ZEROS), 0, tol⟩ :
      RemoteReceiveData).index <
      (⟨zeroPulses k ++
      (framesFor (Q :: Qs) ++ zeroPulses AOK_PRE_POST_ZEROS), 0, tol⟩ :
      RemoteReceiveData).size - min_size := by
    simp only [RemoteReceiveData.size, List.length_append, framesFor_length,
      zeroPulses_length, min_size, AOK_PACKET_SIZE, AOK_PRE_POST_ZEROS,
      List.length_cons]
    omega
  rw [if_pos hcond]
  have hscan0 := scanSkip_zeros htol k []
    ((bitPulses (packet_bits Q) AOK_PACKET_SIZE ++
        [(AOK_ONE_MARK : Int), -(AOK_PACKET_SUFFIX_SPACE : Int)]) ++
      (framesFor Qs ++ zeroPulses AOK_PRE_POST_ZEROS))
    ((⟨zeroPulses k ++
        (framesFor (Q :: Qs) ++ zeroPulses AOK_PRE_POST_ZEROS), 0, tol⟩ :
        RemoteReceiveData).size + 1)
    (by
      simp only [RemoteReceiveData.size, List.length_append, framesFor_length,
        zeroPulses_length, List.length_cons]
      omega)
    (by
      simp only [List.length_append, bitPulses_length, zeroPulses_length,
        framesFor_length, List.length_cons, List.length_nil, AOK_PACKET_SIZE]
      omega)
  simp only [List.nil_append, List.length_nil, Nat.zero_add] at hscan0
  have hD : zeroPulses k ++
      ([(AOK_PACKET_PREFIX_MARK : Int), -(AOK_ZERO_SPACE : Int)] ++
        ((bitPulses (packet_bits Q) AOK_PACKET_SIZE ++
            [(AOK_ONE_MARK : Int), -(AOK_PACKET_SUFFIX_SPACE : Int)]) ++
          (framesFor Qs ++ zeroPulses AOK_PRE_POST_ZEROS))) =
      zeroPulses k ++
        (framesFor (Q :: Qs) ++ zeroPulses AOK_PRE_POST_ZEROS) := by
    simp [framesFor, frameList]
  rw [hD] at hscan0
  rw [hscan0]
  dsimp only
  have hmk : (⟨zeroPulses k ++
      (framesFor (Q :: Qs) ++ zeroPulses AOK_PRE_POST_ZEROS), 2 * k, tol⟩ :
      RemoteReceiveData) =
      ⟨zeroPulses k ++ (frameList (packet_bits Q) ++
        (framesFor Qs ++ zeroPulses AOK_PRE_POST_ZEROS)),
        (zeroPulses k).length, tol⟩ := by
    rw [zeroPulses_length]
    simp [framesFor]
  rw [hmk]
  rw [decode_packet_frame htol hQ]
  dsimp only
  have hmk2 : (⟨zeroPulses k ++ (frameList (packet_bits Q) ++
      (framesFor Qs ++ zeroPulses AOK_PRE_POST_ZEROS)),
      (zeroPulses k).length + 132, tol⟩ : RemoteReceiveData) =
      ⟨(zeroPulses k ++ frameList (packet_bits Q)) ++
        (framesFor Qs ++ zeroPulses AOK_PRE_POST_ZEROS),
        (zeroPulses k ++ frameList (packet_bits Q)).length, tol⟩ := by
    simp [frameList_length]
  rw [hmk2]
  rw [decodeLoop_frames htol Qs ([] ++ [Q])
    (zeroPulses k ++ frameList (packet_bits Q)) fuel (by simp) hQs hfuel]
  rfl

/-! ## Further helpers for the top-level decode -/

theorem decode_unfold_ge (data : List Int) (tol : Nat)
    (h : ¬ ((⟨data, 0, tol⟩ : RemoteReceiveData).size <
      min_size * AOK_REPEATS + AOK_PRE_POST_ZEROS * 2)) :
    decode data tol =
      decodeLoop ⟨data, 0, tol⟩ []
        ((⟨data, 0, tol⟩ : RemoteReceiveData).size + 1) := by
  unfold decode
  rw [if_neg h]

theorem peekMark_none {src : RemoteReceiveData} {len offset : Nat}
    (h : src.peek offset = none) : src.peekMark len offset = false := by
  simp [RemoteReceiveData.peekMark, h]

/-- The one-pulse realignment step: when the packet-start item fails at the
cursor but matches one pulse ahead and the bail-out does not fire, the scan
advances by exactly one pulse and stops there. -/
theorem scanSkip_misaligned (src : RemoteReceiveData) (fuel : Nat)
    (h0 : src.peek_item AOK_PACKET_PREFIX_MARK AOK_ZERO_SPACE 0 = false)
    (h1 : src.peek_item AOK_PACKET_PREFIX_MARK AOK_ZERO_SPACE 1 = true)
    (hbail : ¬ (src.size - min_size < src.index + 1)) (hfuel : 0 < fuel) :
    scanSkip src (fuel + 1) = some (src.advance 1) := by
  cases fuel with
  | zero => omega
  | succ f =>
    rw [scanSkip, h0, h1]
    simp only [Bool.false_eq_true, if_false, if_true]
    have hbail' : ¬ ((src.advance 1).size - min_size < (src.advance 1).index) := by
      simpa [RemoteReceiveData.advance, RemoteReceiveData.size] using hbail
    rw [if_neg hbail']
    have hfound : (src.advance 1).peek_item AOK_PACKET_PREFIX_MARK
        AOK_ZERO_SPACE 0 = true := by
      rw [peek_item_advance]
      simpa using h1
    exact scanSkip_found f hfound

/-- No packet-start item ever matches inside a region whose pulses are all
below the lower tolerance bound of the start mark. -/
theorem noise_peek_item_false {tol : Nat} (htol : tol ≤ 25)
    (pre noise : List Int) (hnoise : ∀ v ∈ noise, v < (3750 : Int)) (j : Nat) :
    RemoteReceiveData.peek_item ⟨pre ++ noise, pre.length, tol⟩
      AOK_PACKET_PREFIX_MARK AOK_ZERO_SPACE j = false := by
  have hp : RemoteReceiveData.peek ⟨pre ++ noise, pre.length, tol⟩ j =
      noise.get? j := peek_mk pre noise j tol
  cases hg : noise.get? j with
  | none => exact peek_item_of_mark_false (peekMark_none (hp.trans hg))
  | some v =>
    have hv : v ∈ noise := List.get?_mem hg
    refine peek_item_of_mark_false (peekMark_low (hp.trans hg) ?_)
    have hlb : (3750 : Int) ≤
        ((lowBound ((⟨pre ++ noise, pre.length, tol⟩ :
          RemoteReceiveData)).tol AOK_PACKET_PREFIX_MARK : Nat) : Int) := by
      have h5 := lowBound_5000 htol
      exact_mod_cast h5
    have hsmall := hnoise v hv
    omega

/-- After decoding one valid frame, a tail of non-matching noise drives the
resynchronization scan into its bail-out, which aborts the whole decode with
an empty result even though a packet was already collected. -/
theorem decodeLoop_frame_then_noise {tol : Nat} (htol : tol ≤ 25)
    {d : AOKData} (hd : d.Valid) (pre noise : List Int) (ps : List AOKData)
    (hnoise : ∀ v ∈ noise, v < (3750 : Int)) (hlen : 132 < noise.length)
    (fuel : Nat) (hfuel : 0 < fuel) :
    decodeLoop ⟨pre ++ (frameList (packet_bits d) ++ noise), pre.length, tol⟩
      ps (fuel + 1) = none := by
  cases fuel with
  | zero => omega
  | succ f =>
    rw [decodeLoop]
    have hcond : (⟨pre ++ (frameList (packet_bits d) ++ noise), pre.length, tol⟩ :
        RemoteReceiveData).index <
        (⟨pre ++ (frameList (packet_bits d) ++ noise), pre.length, tol⟩ :
        RemoteReceiveData).size - min_size := by
      simp only [RemoteReceiveData.size, List.length_append, frameList_length,
        min_size, AOK_PACKET_SIZE]
      omega
    rw [if_pos hcond]
    have hp0 : RemoteReceiveData.peek
        ⟨pre ++ (frameList (packet_bits d) ++ noise), pre.length, tol⟩ 0 =
        some (AOK_PACKET_PREFIX_MARK : Int) := by
      rw [peek_mk]
      simp [frameList]
    have hp1 : RemoteReceiveData.peek
        ⟨pre ++ (frameList (packet_bits d) ++ noise), pre.length, tol⟩ 1 =
        some (-(AOK_ZERO_SPACE : Int)) := by
      rw [peek_mk]
      simp [frameList]
    rw [scanSkip_found _ (peek_item_exact hp0 hp1)]
    dsimp only
    rw [decode_packet_frame htol hd]
    dsimp only
    rw [decodeLoop]
    have hmk : (⟨pre ++ (frameList (packet_bits d) ++ noise),
        pre.length + 132, tol⟩ : RemoteReceiveData) =
        ⟨(pre ++ frameList (packet_bits d)) ++ noise,
          (pre ++ frameList (packet_bits d)).length, tol⟩ := by
      simp [frameList_length]
    rw [hmk]
    have hcond2 : (⟨(pre ++ frameList (packet_bits d)) ++ noise,
        (pre ++ frameList (packet_bits d)).length, tol⟩ :
        RemoteReceiveData).index <
        (⟨(pre ++ frameList (packet_bits d)) ++ noise,
        (pre ++ frameList (packet_bits d)).length, tol⟩ :
        RemoteReceiveData).size - min_size := by
      simp only [RemoteReceiveData.size, List.length_append, frameList_length,
        min_size, AOK_PACKET_SIZE]
      omega
    rw [if_pos hcond2]
    rw [scanSkip_noise _ _
      (noise_peek_item_false htol (pre ++ frameList (packet_bits d)) noise hnoise)
      (by
        simp only [RemoteReceiveData.size, RemoteReceiveData.advance,
          List.length_append, frameList_length, min_size, AOK_PACKET_SIZE]
        omega)]

/-- One valid frame followed by enough non-matching noise decodes to an empty
result: the bail-out of the resynchronization scan discards the collected
packet. -/
theorem decode_frame_then_noise {tol : Nat} (htol : tol ≤ 25) {d : AOKData}
    (hd : d.Valid) (noise : List Int)
    (hnoise : ∀ v ∈ noise, v < (3750 : Int))
    (hlen : min_size * AOK_REPEATS + AOK_PRE_POST_ZEROS * 2 ≤
      132 + noise.length) :
    decode (frameList (packet_bits d) ++ noise) tol = none := by
  rw [decode_unfold_ge _ _ (by
    simp only [RemoteReceiveData.size, List.length_append, frameList_length,
      min_size, AOK_PACKET_SIZE, AOK_REPEATS, AOK_PRE_POST_ZEROS]
    simp only [min_size, AOK_PACKET_SIZE, AOK_REPEATS, AOK_PRE_POST_ZEROS] at hlen
    omega)]
  have hmk : (⟨frameList (packet_bits d) ++ noise, 0, tol⟩ :
      RemoteReceiveData) =
      ⟨[] ++ (frameList (packet_bits d) ++ noise),
        ([] : List Int).length, tol⟩ := rfl
  rw [hmk]
  refine decodeLoop_frame_then_noise htol hd [] noise [] hnoise ?_ _ ?_
  · simp only [min_size, AOK_PACKET_SIZE, AOK_REPEATS, AOK_PRE_POST_ZEROS] at hlen
    omega
  · simp only [RemoteReceiveData.size, List.length_append, frameList_length]
    omega

/-- Whatever the scan does, its result is empty or the head of the collected
packets extended by the frames decoded during the scan. -/
theorem decodeLoop_shape :
    ∀ (fuel : Nat) (src : RemoteReceiveData) (ps : List AOKData),
      decodeLoop src ps fuel = none ∨
        ∃ qs : List AOKData, decodeLoop src ps fuel = (ps ++ qs).head?
  | 0, src, ps => Or.inl rfl
  | fuel + 1, src, ps => by
    rw [decodeLoop]
    by_cases h : src.index < src.size - min_size
    · rw [if_pos h]
      cases hs : scanSkip src (src.size + 1) with
      | none => exact Or.inl rfl
      | some s =>
        dsimp only
        rcases hdp : decode_packet s with ⟨p, s'⟩
        cases p with
        | none =>
          dsimp only
          exact decodeLoop_shape fuel s' ps
        | some q =>
          dsimp only
          rcases decodeLoop_shape fuel s' (ps ++ [q]) with h1 | ⟨qs, h1⟩
          · exact Or.inl h1
          · refine Or.inr ⟨[q] ++ qs, ?_⟩
            rw [h1]
            simp
    · rw [if_neg h]
      exact Or.inr ⟨[], by simp⟩

/-! ## Claim theorems -/

/-- C2: for device 0x010203, channel CHANNEL_1 (0x0100), command STOP (0x23),
the checksum is 0x2A, the 64-bit frame is 0xA30102030100232A, and decoding
exactly that value yields the same device, channel and command. -/
theorem aok_concrete_stop_scenario :
    (AOKData.mk 0x010203 CHANNEL_1 COMMAND_STOP).checksum = 0x2A ∧
    packet_bits (AOKData.mk 0x010203 CHANNEL_1 COMMAND_STOP) =
      0xA30102030100232A ∧
    parseValue 0xA30102030100232A =
      some (AOKData.mk 0x010203 CHANNEL_1 COMMAND_STOP) :=
  ⟨by decide, by decide, by decide⟩

/-- C6: the value-level part of single-frame decode succeeds exactly when the
extracted top byte equals 0xA3 and the checksum recomputed over the
extracted device, channel and command equals the extracted low byte; every
other value gives an empty result, never an exception (the function is
total, so its result is always `none` or the extracted packet). -/
theorem parseValue_header_checksum_spec (ul : Nat) :
    ((parseValue ul).isSome ↔
      ((ul >>> 56) % 256 = AOK_HEADER ∧
        (AOKData.mk ((ul >>> 32) &&& 0xffffff) ((ul >>> 16) &&& 0xffff)
          ((ul >>> 8) &&& 0xff)).checksum = ul &&& 0xff)) ∧
    (parseValue ul = none ∨
      parseValue ul = some (AOKData.mk ((ul >>> 32) &&& 0xffffff)
        ((ul >>> 16) &&& 0xffff) ((ul >>> 8) &&& 0xff))) := by
  unfold parseValue
  constructor
  · split_ifs <;> simp_all
  · by_cases h1 : (ul >>> 56) % 256 ≠ AOK_HEADER
    · rw [if_pos h1]
      exact Or.inl rfl
    · rw [if_neg h1]
      dsimp only
      by_cases h2 : (AOKData.mk ((ul >>> 32) &&& 0xffffff)
          ((ul >>> 16) &&& 0xffff) ((ul >>> 8) &&& 0xff)).checksum ≠
          ul &&& 0xff
      · rw [if_pos h2]
        exact Or.inl rfl
      · rw [if_neg h2]
        exact Or.inr rfl

/-- C8: a stream shorter than the minimum viable burst
(`min_size * AOK_REPEATS + AOK_PRE_POST_ZEROS * 2` raw pulses) decodes to an
empty result; the definition of `decode` returns before the scan loop. -/
theorem decode_short_stream (data : List Int) (tol : Nat)
    (h : data.length < min_size * AOK_REPEATS + AOK_PRE_POST_ZEROS * 2) :
    decode data tol = none := by
  unfold decode
  rw [if_pos (show (⟨data, 0, tol⟩ : RemoteReceiveData).size <
    min_size * AOK_REPEATS + AOK_PRE_POST_ZEROS * 2 from h)]

/-- C8 witness. -/
theorem decode_short_stream_witness :
    ([] : List Int).length < min_size * AOK_REPEATS + AOK_PRE_POST_ZEROS * 2 ∧
      decode [] 0 = none :=
  ⟨by decide, decode_short_stream [] 0 (by decide)⟩

/-- C10: the minimum-length threshold is exactly 824 raw pulses; below it the
decode is empty, at or above it the scan loop is entered; 824 is
132 pulses per frame times the 6 repeats plus 32, which is half of the 64
raw pulses of a full preamble plus postamble, so the threshold is smaller
than the 856 pulses of one complete transmitted burst. -/
theorem decode_min_length_threshold :
    (min_size * AOK_REPEATS + AOK_PRE_POST_ZEROS * 2 = 824) ∧
    (∀ (data : List Int) (tol : Nat), data.length < 824 →
      decode data tol = none) ∧
    (∀ (data : List Int) (tol : Nat), 824 ≤ data.length →
      decode data tol = decodeLoop ⟨data, 0, tol⟩ [] (data.length + 1)) ∧
    ((zeroPulses AOK_PRE_POST_ZEROS).length +
      (zeroPulses AOK_PRE_POST_ZEROS).length = 64) ∧
    (824 = 132 * AOK_REPEATS + 64 / 2) ∧
    (∀ d : AOKData, d.command = COMMAND_STOP → (encode d).length = 856) ∧
    824 < 856 := by
  refine ⟨by decide, ?_, ?_, by decide, by decide, ?_, by decide⟩
  · intro data tol h
    unfold decode
    rw [if_pos (show (⟨data, 0, tol⟩ : RemoteReceiveData).size <
      min_size * AOK_REPEATS + AOK_PRE_POST_ZEROS * 2 by
      show data.length < min_size * AOK_REPEATS + AOK_PRE_POST_ZEROS * 2
      simp only [min_size, AOK_REPEATS, AOK_PRE_POST_ZEROS, AOK_PACKET_SIZE]
      omega)]
  · intro data tol h
    rw [decode_unfold_ge _ _ (by
      show ¬ (data.length < min_size * AOK_REPEATS + AOK_PRE_POST_ZEROS * 2)
      simp only [min_size, AOK_REPEATS, AOK_PRE_POST_ZEROS, AOK_PACKET_SIZE]
      omega)]
    rfl
  · intro d h
    have h1 : d.command ≠ COMMAND_UP := by rw [h]; decide
    have h2 : d.command ≠ COMMAND_DOWN := by rw [h]; decide
    rw [encode_eq_of_not_release d h1 h2]
    simp only [List.length_append, framesFor_length, zeroPulses_length,
      List.length_replicate, AOK_REPEATS, AOK_PRE_POST_ZEROS]

set_option maxRecDepth 100000 in
/-- C10 witness. -/
theorem decode_min_length_threshold_witness :
    824 ≤ (encode (AOKData.mk 1 2 COMMAND_STOP)).length ∧
    (AOKData.mk 1 2 COMMAND_STOP).command = COMMAND_STOP ∧
    decode (encode (AOKData.mk 1 2 COMMAND_STOP)) 0 =
      decodeLoop ⟨encode (AOKData.mk 1 2 COMMAND_STOP), 0, 0⟩ []
        ((encode (AOKData.mk 1 2 COMMAND_STOP)).length + 1) ∧
    (encode (AOKData.mk 1 2 COMMAND_STOP)).length = 856 :=
  ⟨by decide, rfl,
    decode_min_length_threshold.2.2.1 _ 0 (by decide),
    (decode_min_length_threshold.2.2.2.2.2.1 _ rfl)⟩

/-- C4 counterexample: a device with bit 26 set is not truncated to its low
24 bits; the high byte is ORed into the header, so the emitted frame differs
from the masked-device frame and its top byte becomes 0xA7, not 0xA3. -/
theorem packet_bits_overflow_counterexample :
    packet_bits (AOKData.mk 0x04000000 CHANNEL_1 COMMAND_STOP) ≠
      packet_bits (AOKData.mk (0x04000000 % 2 ^ 24) CHANNEL_1 COMMAND_STOP) ∧
    packet_bits (AOKData.mk 0x04000000 CHANNEL_1 COMMAND_STOP) >>> 56 = 0xa7 :=
  ⟨by decide, by decide⟩

/-- C4 amended: transmit encoding is total; the low 56 frame bits depend only
on the device's low 24 bits (channel and command are width-limited by their
C++ types), but device bits above bit 23 are ORed into the header byte
rather than truncated: the top byte of the frame is 0xA3 OR (device >> 24). -/
theorem packet_bits_overflow_amended (d : AOKData) (hd : d.Wf) :
    packet_bits d % 2 ^ 56 =
      packet_bits (AOKData.mk (d.device % 2 ^ 24) d.channel d.command) %
        2 ^ 56 ∧
    packet_bits d >>> 56 = AOK_HEADER ||| (d.device >>> 24) := by
  obtain ⟨h1, h2, h3⟩ := hd
  constructor
  · have hcks : (AOKData.mk (d.device % 2 ^ 24) d.channel d.command).checksum =
        d.checksum := by
      unfold AOKData.checksum
      dsimp only
      omega
    unfold packet_bits
    rw [hcks]
    rw [← Nat.and_pow_two_sub_one_eq_mod, ← Nat.and_pow_two_sub_one_eq_mod]
    rw [Nat.and_distrib_right, Nat.and_distrib_right, Nat.and_distrib_right,
      Nat.and_distrib_right, Nat.and_distrib_right, Nat.and_distrib_right,
      Nat.and_distrib_right, Nat.and_distrib_right]
    have hdev : d.device <<< 32 &&& 2 ^ 56 - 1 =
        (AOKData.mk (d.device % 2 ^ 24) d.channel d.command).device <<< 32 &&&
          2 ^ 56 - 1 := by
      dsimp only
      rw [Nat.and_pow_two_sub_one_eq_mod, Nat.and_pow_two_sub_one_eq_mod,
        Nat.shiftLeft_eq, Nat.shiftLeft_eq]
      omega
    rw [hdev]
  · unfold packet_bits
    rw [shiftRight_or_distrib, shiftRight_or_distrib, shiftRight_or_distrib,
      shiftRight_or_distrib]
    have a1 : (AOK_HEADER <<< 56) >>> 56 = AOK_HEADER := by decide
    have a2 : d.device <<< 32 >>> 56 = d.device >>> 24 := by
      rw [Nat.shiftLeft_eq, Nat.shiftRight_eq_div_pow, Nat.shiftRight_eq_div_pow]
      omega
    have a3 : d.channel <<< 16 >>> 56 = 0 := by
      rw [Nat.shiftLeft_eq, Nat.shiftRight_eq_div_pow]
      omega
    have a4 : d.command <<< 8 >>> 56 = 0 := by
      rw [Nat.shiftLeft_eq, Nat.shiftRight_eq_div_pow]
      omega
    have a5 : d.checksum >>> 56 = 0 := by
      have hc := d.checksum_lt
      rw [Nat.shiftRight_eq_div_pow]
      omega
    rw [a1, a2, a3, a4, a5]
    simp

/-- C4 witness. -/
theorem packet_bits_overflow_amended_witness :
    (AOKData.mk 0x04000000 CHANNEL_1 COMMAND_STOP).Wf ∧
    (packet_bits (AOKData.mk 0x04000000 CHANNEL_1 COMMAND_STOP) % 2 ^ 56 =
      packet_bits (AOKData.mk (0x04000000 % 2 ^ 24) CHANNEL_1 COMMAND_STOP) %
        2 ^ 56 ∧
    packet_bits (AOKData.mk 0x04000000 CHANNEL_1 COMMAND_STOP) >>> 56 =
      AOK_HEADER ||| (0x04000000 >>> 24)) :=
  ⟨by decide, packet_bits_overflow_amended _ (by decide)⟩

/-- C5: for UP or DOWN commands the encoder emits the packet's frames
`AOK_REPEATS` times immediately followed by the frames, repeated the same
count, of the packet with only the command overwritten to RELEASE; for STOP
and PROGRAM no second burst is emitted. -/
theorem encode_release_synthesis (d : AOKData) :
    ((d.command = COMMAND_UP ∨ d.command = COMMAND_DOWN) →
      encode d = zeroPulses AOK_PRE_POST_ZEROS ++
        (framesFor (List.replicate AOK_REPEATS d) ++
          framesFor (List.replicate AOK_REPEATS
            { d with command := COMMAND_RELEASE })) ++
        zeroPulses AOK_PRE_POST_ZEROS) ∧
    ((d.command = COMMAND_STOP ∨ d.command = COMMAND_PROGRAM) →
      encode d = zeroPulses AOK_PRE_POST_ZEROS ++
        framesFor (List.replicate AOK_REPEATS d) ++
        zeroPulses AOK_PRE_POST_ZEROS) := by
  constructor
  · intro h
    exact encode_eq_of_release d h
  · intro h
    refine encode_eq_of_not_release d ?_ ?_ <;> rcases h with h | h <;>
      rw [h] <;> decide

/-- C5 witness. -/
theorem encode_release_synthesis_witness :
    ((AOKData.mk 1 2 COMMAND_UP).command = COMMAND_UP ∨
      (AOKData.mk 1 2 COMMAND_UP).command = COMMAND_DOWN) ∧
    encode (AOKData.mk 1 2 COMMAND_UP) = zeroPulses AOK_PRE_POST_ZEROS ++
      (framesFor (List.replicate AOK_REPEATS (AOKData.mk 1 2 COMMAND_UP)) ++
        framesFor (List.replicate AOK_REPEATS
          (AOKData.mk 1 2 COMMAND_RELEASE))) ++
      zeroPulses AOK_PRE_POST_ZEROS :=
  ⟨Or.inl rfl, (encode_release_synthesis (AOKData.mk 1 2 COMMAND_UP)).1
    (Or.inl rfl)⟩

set_option maxRecDepth 100000 in
/-- C1 counterexample: a minimum-length stream holding one valid frame
followed by non-matching noise passes the length check and its frame decodes
at the cursor, yet the overall decode returns an empty result: the noise
scan's bail-out (`return {}` at line 166) discards the collected packet. -/
theorem decode_first_frame_counterexample :
    (decode_packet ⟨frameList (packet_bits (AOKData.mk 0x010203 CHANNEL_1
        COMMAND_STOP)) ++ List.replicate 692 (100 : Int), 0, 25⟩).1 =
      some (AOKData.mk 0x010203 CHANNEL_1 COMMAND_STOP) ∧
    min_size * AOK_REPEATS + AOK_PRE_POST_ZEROS * 2 ≤
      (frameList (packet_bits (AOKData.mk 0x010203 CHANNEL_1 COMMAND_STOP)) ++
        List.replicate 692 (100 : Int)).length ∧
    decode (frameList (packet_bits (AOKData.mk 0x010203 CHANNEL_1
        COMMAND_STOP)) ++ List.replicate 692 (100 : Int)) 25 = none := by
  refine ⟨?_, ?_, ?_⟩
  · have hmk : (⟨frameList (packet_bits (AOKData.mk 0x010203 CHANNEL_1
        COMMAND_STOP)) ++ List.replicate 692 (100 : Int), 0, 25⟩ :
        RemoteReceiveData) =
        ⟨[] ++ (frameList (packet_bits (AOKData.mk 0x010203 CHANNEL_1
          COMMAND_STOP)) ++ List.replicate 692 (100 : Int)),
          ([] : List Int).length, 25⟩ := rfl
    rw [hmk, decode_packet_frame (by norm_num) (by decide)]
  · simp only [List.length_append, frameList_length, List.length_replicate,
      min_size, AOK_REPEATS, AOK_PRE_POST_ZEROS, AOK_PACKET_SIZE]
    omega
  · exact decode_frame_then_noise (by norm_num) (by decide) _
      (fun v hv => by rw [List.eq_of_mem_replicate hv]; norm_num)
      (by
        simp only [List.length_replicate, min_size, AOK_REPEATS,
          AOK_PRE_POST_ZEROS, AOK_PACKET_SIZE]
        omega)

/-- C1 amended: the stream decode returns the first collected frame when the
outer loop exits normally, and whenever it returns a packet at all, that
packet is the head of the frames collected during the scan; but an empty
result does not imply that no frame decoded: a valid frame followed by
enough trailing non-matching noise yields an empty result, because the
resynchronization scan's bail-out aborts the whole decode and discards the
already-collected packets. -/
theorem decode_first_frame_amended :
    (∀ (d : AOKData) (noise : List Int) (tol : Nat), d.Valid → tol ≤ 25 →
      (∀ v ∈ noise, v < (3750 : Int)) →
      min_size * AOK_REPEATS + AOK_PRE_POST_ZEROS * 2 ≤ 132 + noise.length →
      decode (frameList (packet_bits d) ++ noise) tol = none) ∧
    (∀ (src : RemoteReceiveData) (ps : List AOKData) (fuel : Nat),
      decodeLoop src ps fuel = none ∨
        ∃ qs : List AOKData, decodeLoop src ps fuel = (ps ++ qs).head?) :=
  ⟨fun _ noise _ hd htol hnoise hlen =>
    decode_frame_then_noise htol hd noise hnoise hlen,
   fun src ps fuel => decodeLoop_shape fuel src ps⟩

set_option maxRecDepth 100000 in
/-- C1 amended witness. -/
theorem decode_first_frame_amended_witness :
    (AOKData.mk 0x010203 CHANNEL_1 COMMAND_STOP).Valid ∧ (25 : Nat) ≤ 25 ∧
    (∀ v ∈ List.replicate 692 (100 : Int), v < (3750 : Int)) ∧
    min_size * AOK_REPEATS + AOK_PRE_POST_ZEROS * 2 ≤
      132 + (List.replicate 692 (100 : Int)).length ∧
    decode (frameList (packet_bits (AOKData.mk 0x010203 CHANNEL_1
      COMMAND_STOP)) ++ List.replicate 692 (100 : Int)) 25 = none :=
  ⟨by decide, by norm_num, by decide, by decide,
    decode_first_frame_amended.1 _ _ 25 (by decide) (by norm_num) (by decide)
      (by decide)⟩

/-- C3: decoding the pulse sequence produced by encoding a valid packet
whose command is neither UP nor DOWN yields exactly that packet. -/
theorem decode_encode_roundtrip (d : AOKData) (tol : Nat) (hd : d.Valid)
    (h1 : d.command ≠ COMMAND_UP) (h2 : d.command ≠ COMMAND_DOWN)
    (htol : tol ≤ 25) : decode (encode d) tol = some d := by
  rw [encode_eq_of_not_release d h1 h2]
  rw [show List.replicate AOK_REPEATS d = d :: List.replicate 5 d from rfl]
  rw [decode_unfold_ge _ _ (by
    simp only [RemoteReceiveData.size, List.length_append, framesFor_length,
      zeroPulses_length, List.length_cons, List.length_replicate, min_size,
      AOK_PACKET_SIZE, AOK_REPEATS, AOK_PRE_POST_ZEROS]
    omega)]
  exact decodeLoop_full htol AOK_PRE_POST_ZEROS d (List.replicate 5 d) hd
    (fun R hR => by rw [List.eq_of_mem_replicate hR]; exact hd) _
    (by
      simp only [RemoteReceiveData.size, List.length_replicate,
        List.length_append, framesFor_length, zeroPulses_length,
        List.length_cons]
      omega)

/-- C3 witness. -/
theorem decode_encode_roundtrip_witness :
    (AOKData.mk 0x010203 CHANNEL_1 COMMAND_STOP).Valid ∧
    (AOKData.mk 0x010203 CHANNEL_1 COMMAND_STOP).command ≠ COMMAND_UP ∧
    (AOKData.mk 0x010203 CHANNEL_1 COMMAND_STOP).command ≠ COMMAND_DOWN ∧
    (25 : Nat) ≤ 25 ∧
    decode (encode (AOKData.mk 0x010203 CHANNEL_1 COMMAND_STOP)) 25 =
      some (AOKData.mk 0x010203 CHANNEL_1 COMMAND_STOP) :=
  ⟨by decide, by decide, by decide, by norm_num,
    decode_encode_roundtrip _ 25 (by decide) (by decide) (by decide)
      (by norm_num)⟩

/-- C9: for a valid packet with command UP or DOWN, decoding the encoder's
pulse sequence returns the original packet, not the synthesized RELEASE
packet, because the first decoded burst carries the original command. -/
theorem decode_encode_roundtrip_updown (d : AOKData) (tol : Nat)
    (hd : d.Valid) (h : d.command = COMMAND_UP ∨ d.command = COMMAND_DOWN)
    (htol : tol ≤ 25) : decode (encode d) tol = some d := by
  rw [encode_eq_of_release d h]
  have hsh : framesFor (List.replicate AOK_REPEATS d) ++
      framesFor (List.replicate AOK_REPEATS
        { d with command := COMMAND_RELEASE }) =
      framesFor (d :: (List.replicate 5 d ++ List.replicate AOK_REPEATS
        { d with command := COMMAND_RELEASE })) := by
    rw [← framesFor_append]
    rfl
  rw [hsh]
  rw [decode_unfold_ge _ _ (by
    simp only [RemoteReceiveData.size, List.length_append, framesFor_length,
      zeroPulses_length, List.length_cons, List.length_replicate, min_size,
      AOK_PACKET_SIZE, AOK_REPEATS, AOK_PRE_POST_ZEROS]
    omega)]
  refine decodeLoop_full htol AOK_PRE_POST_ZEROS d _ hd ?_ _ ?_
  · intro R hR
    rcases List.mem_append.mp hR with h' | h'
    · rw [List.eq_of_mem_replicate h']
      exact hd
    · rw [List.eq_of_mem_replicate h']
      exact ⟨hd.1, hd.2.1, (by decide : COMMAND_RELEASE < 2 ^ 8)⟩
  · simp only [RemoteReceiveData.size, List.length_append,
      List.length_replicate, framesFor_length, zeroPulses_length,
      List.length_cons]
    omega

/-- C9 witness. -/
theorem decode_encode_roundtrip_updown_witness :
    (AOKData.mk 0x010203 CHANNEL_1 COMMAND_UP).Valid ∧
    ((AOKData.mk 0x010203 CHANNEL_1 COMMAND_UP).command = COMMAND_UP ∨
      (AOKData.mk 0x010203 CHANNEL_1 COMMAND_UP).command = COMMAND_DOWN) ∧
    (25 : Nat) ≤ 25 ∧
    decode (encode (AOKData.mk 0x010203 CHANNEL_1 COMMAND_UP)) 25 =
      some (AOKData.mk 0x010203 CHANNEL_1 COMMAND_UP) :=
  ⟨by decide, Or.inl rfl, by norm_num,
    decode_encode_roundtrip_updown _ 25 (by decide) (Or.inl rfl)
      (by norm_num)⟩

/-- C7: when the packet-start pair does not match at the cursor but does
match one pulse ahead (and the bail-out does not fire), the scan advances by
exactly one pulse; in particular a stream carrying one extra leading pulse
before a valid transmission still decodes to the original packet through the
one-pulse realignment path. -/
theorem decode_misaligned_recovery :
    (∀ (src : RemoteReceiveData) (fuel : Nat),
      src.peek_item AOK_PACKET_PREFIX_MARK AOK_ZERO_SPACE 0 = false →
      src.peek_item AOK_PACKET_PREFIX_MARK AOK_ZERO_SPACE 1 = true →
      ¬ (src.size - min_size < src.index + 1) → 0 < fuel →
      scanSkip src (fuel + 1) = some (src.advance 1)) ∧
    (∀ (d : AOKData) (x : Int) (tol : Nat), d.Valid → tol ≤ 25 →
      decode (x :: (framesFor (List.replicate AOK_REPEATS d) ++
        zeroPulses AOK_PRE_POST_ZEROS)) tol = some d) := by
  constructor
  · exact fun src fuel h0 h1 hb hf => scanSkip_misaligned src fuel h0 h1 hb hf
  · intro d x tol hd htol
    rw [show List.replicate AOK_REPEATS d = d :: List.replicate 5 d from rfl]
    rw [decode_unfold_ge _ _ (by
      simp only [RemoteReceiveData.size, List.length_cons, List.length_append,
        framesFor_length, zeroPulses_length, List.length_replicate, min_size,
        AOK_PACKET_SIZE, AOK_REPEATS, AOK_PRE_POST_ZEROS]
      omega)]
    rw [decodeLoop]
    have hcond : (⟨x :: (framesFor (d :: List.replicate 5 d) ++
        zeroPulses AOK_PRE_POST_ZEROS), 0, tol⟩ :
        RemoteReceiveData).index <
        (⟨x :: (framesFor (d :: List.replicate 5 d) ++
        zeroPulses AOK_PRE_POST_ZEROS), 0, tol⟩ :
        RemoteReceiveData).size - min_size := by
      simp only [RemoteReceiveData.size, List.length_cons, List.length_append,
        framesFor_length, zeroPulses_length, List.length_replicate, min_size,
        AOK_PACKET_SIZE, AOK_PRE_POST_ZEROS]
      omega
    rw [if_pos hcond]
    have hpk1 : RemoteReceiveData.peek ⟨x :: (framesFor (d ::
        List.replicate 5 d) ++ zeroPulses AOK_PRE_POST_ZEROS), 0, tol⟩ 1 =
        some (AOK_PACKET_PREFIX_MARK : Int) := by
      show (x :: (framesFor (d :: List.replicate 5 d) ++
        zeroPulses AOK_PRE_POST_ZEROS)).get? (0 + 1) = _
      simp [framesFor, frameList]
    have hpk2 : RemoteReceiveData.peek ⟨x :: (framesFor (d ::
        List.replicate 5 d) ++ zeroPulses AOK_PRE_POST_ZEROS), 0, tol⟩ 2 =
        some (-(AOK_ZERO_SPACE : Int)) := by
      show (x :: (framesFor (d :: List.replicate 5 d) ++
        zeroPulses AOK_PRE_POST_ZEROS)).get? (0 + 2) = _
      simp [framesFor, frameList]
    have h0 : RemoteReceiveData.peek_item ⟨x :: (framesFor (d ::
        List.replicate 5 d) ++ zeroPulses AOK_PRE_POST_ZEROS), 0, tol⟩
        AOK_PACKET_PREFIX_MARK AOK_ZERO_SPACE 0 = false := by
      refine peek_item_of_space_false (peekSpace_pos hpk1 ?_)
      show (0 : Int) < ((AOK_PACKET_PREFIX_MARK : Nat) : Int)
      norm_num [AOK_PACKET_PREFIX_MARK]
    have h1 : RemoteReceiveData.peek_item ⟨x :: (framesFor (d ::
        List.replicate 5 d) ++ zeroPulses AOK_PRE_POST_ZEROS), 0, tol⟩
        AOK_PACKET_PREFIX_MARK AOK_ZERO_SPACE 1 = true :=
      peek_item_exact hpk1 hpk2
    have hbail : ¬ ((⟨x :: (framesFor (d :: List.replicate 5 d) ++
        zeroPulses AOK_PRE_POST_ZEROS), 0, tol⟩ :
        RemoteReceiveData).size - min_size <
        (⟨x :: (framesFor (d :: List.replicate 5 d) ++
        zeroPulses AOK_PRE_POST_ZEROS), 0, tol⟩ :
        RemoteReceiveData).index + 1) := by
      simp only [RemoteReceiveData.size, List.length_cons, List.length_append,
        framesFor_length, zeroPulses_length, List.length_replicate, min_size,
        AOK_PACKET_SIZE, AOK_PRE_POST_ZEROS]
      omega
    have hfs : 0 < (⟨x :: (framesFor (d :: List.replicate 5 d) ++
        zeroPulses AOK_PRE_POST_ZEROS), 0, tol⟩ :
        RemoteReceiveData).size := by
      simp only [RemoteReceiveData.size, List.length_cons]
      omega
    rw [scanSkip_misaligned _ _ h0 h1 hbail hfs]
    dsimp only [RemoteReceiveData.advance]
    have hmk : (⟨x :: (framesFor (d :: List.replicate 5 d) ++
        zeroPulses AOK_PRE_POST_ZEROS), 0 + 1, tol⟩ : RemoteReceiveData) =
        ⟨[x] ++ (frameList (packet_bits d) ++ (framesFor (List.replicate 5 d)
          ++ zeroPulses AOK_PRE_POST_ZEROS)), ([x] : List Int).length,
          tol⟩ := by
      simp [framesFor]
    rw [hmk]
    rw [decode_packet_frame htol hd]
    dsimp only
    have hmk2 : (⟨[x] ++ (frameList (packet_bits d) ++
        (framesFor (List.replicate 5 d) ++ zeroPulses AOK_PRE_POST_ZEROS)),
        ([x] : List Int).length + 132, tol⟩ : RemoteReceiveData) =
        ⟨([x] ++ frameList (packet_bits d)) ++
          (framesFor (List.replicate 5 d) ++ zeroPulses AOK_PRE_POST_ZEROS),
          ([x] ++ frameList (packet_bits d)).length, tol⟩ := by
      simp [frameList_length]
    rw [hmk2]
    rw [decodeLoop_frames htol (List.replicate 5 d) ([] ++ [d])
      ([x] ++ frameList (packet_bits d))
      ((⟨x :: (framesFor (d :: List.replicate 5 d) ++
        zeroPulses AOK_PRE_POST_ZEROS), 0, tol⟩ :
        RemoteReceiveData).size) (by simp)
      (fun R hR => by rw [List.eq_of_mem_replicate hR]; exact hd)
      (by
        simp only [RemoteReceiveData.size, List.length_cons,
          List.length_append, List.length_replicate, framesFor_length,
          zeroPulses_length]
        omega)]
    rfl

/-- C7 witness. -/
theorem decode_misaligned_recovery_witness :
    (AOKData.mk 0x010203 CHANNEL_1 COMMAND_STOP).Valid ∧ (25 : Nat) ≤ 25 ∧
    decode ((7 : Int) :: (framesFor (List.replicate AOK_REPEATS
      (AOKData.mk 0x010203 CHANNEL_1 COMMAND_STOP)) ++
      zeroPulses AOK_PRE_POST_ZEROS)) 25 =
      some (AOKData.mk 0x010203 CHANNEL_1 COMMAND_STOP) :=
  ⟨by decide, by norm_num,
    decode_misaligned_recovery.2 _ 7 25 (by decide) (by norm_num)⟩
